import Mathlib

/-!
Shallow embedding of `crates/core/src/conn/joined.rs` (the `JoinedListener`
combinator of the salvo server core) and proofs of its specification claims.

Async operations are embedded as explicit state passing:
- a listener's `try_bind` is a function from a world state to a result and an
  updated world (the world records the side effects of binding);
- an acceptor's `accept` mutates the acceptor value, so it is a function from
  the acceptor to a result and an updated acceptor;
- `tokio::select!` racing two accepts is embedded by a `Winner` parameter,
  the nondeterministic choice of which sub-accept completes first; the losing
  future is dropped (cancel-safe accept has no side effects), so only the
  winning side's state advances.
-/

/-- Modelled from the spec: `Holding` (crate `salvo-core`, not in the provided
sources) describes one bound endpoint: transport kind, local address and
supported protocol versions. The combinator only concatenates these. -/
structure Holding where
  kind : String
  addr : String
  versions : List String
deriving DecidableEq, Repr

/-- Model of `std::io::Error` as carried by `IoResult`. -/
structure IoError where
  msg : String
deriving DecidableEq, Repr

/-- Modelled from the spec: `Accepted<Conn>` (crate `salvo-core`, not in the
provided sources) pairs a connection with its local/remote address metadata. -/
structure Accepted (Conn : Type) where
  conn : Conn
  local_addr : String
  remote_addr : String
deriving DecidableEq, Repr

/-- Modelled from the spec: `Accepted::map_conn` transforms the contained
connection while preserving the address metadata. -/
def Accepted.map_conn {C D : Type} (acc : Accepted C) (f : C → D) : Accepted D :=
  { conn := f acc.conn, local_addr := acc.local_addr, remote_addr := acc.remote_addr }

/-- `JoinedStream<A, B>` from `joined.rs`: a two-variant tagged union of
connection types. -/
inductive JoinedStream (A B : Type) where
  | A (conn : A)
  | B (conn : B)
deriving DecidableEq, Repr

/-- Model of `std::task::Poll`. -/
inductive Poll (α : Type) where
  | Ready (val : α)
  | Pending
deriving DecidableEq, Repr

/-- The `AsyncRead` capability of a connection type `C`: `poll_read` takes the
connection, a task context and a `ReadBuf`, returning the poll result, the
updated connection and the filled buffer. -/
structure AsyncReadImpl (C Ctx Buf : Type) where
  poll_read : C → Ctx → Buf → Poll (Except IoError Unit) × C × Buf

/-- The `AsyncWrite` capability of a connection type `C`. -/
structure AsyncWriteImpl (C Ctx : Type) where
  poll_write : C → Ctx → List Nat → Poll (Except IoError Nat) × C
  poll_flush : C → Ctx → Poll (Except IoError Unit) × C
  poll_shutdown : C → Ctx → Poll (Except IoError Unit) × C

/-- `AsyncRead for JoinedStream` (`joined.rs` lines 26-38): dispatch
`poll_read` to the active variant. -/
def JoinedStream.poll_read {A B Ctx Buf : Type}
    (ra : AsyncReadImpl A Ctx Buf) (rb : AsyncReadImpl B Ctx Buf) :
    JoinedStream A B → Ctx → Buf → Poll (Except IoError Unit) × JoinedStream A B × Buf
  | .A a, cx, buf =>
    let r := ra.poll_read a cx buf
    (r.1, .A r.2.1, r.2.2)
  | .B b, cx, buf =>
    let r := rb.poll_read b cx buf
    (r.1, .B r.2.1, r.2.2)

/-- `AsyncWrite for JoinedStream`, `poll_write` (`joined.rs` lines 46-51). -/
def JoinedStream.poll_write {A B Ctx : Type}
    (wa : AsyncWriteImpl A Ctx) (wb : AsyncWriteImpl B Ctx) :
    JoinedStream A B → Ctx → List Nat → Poll (Except IoError Nat) × JoinedStream A B
  | .A a, cx, buf =>
    let r := wa.poll_write a cx buf
    (r.1, .A r.2)
  | .B b, cx, buf =>
    let r := wb.poll_write b cx buf
    (r.1, .B r.2)

/-- `AsyncWrite for JoinedStream`, `poll_flush` (`joined.rs` lines 54-59). -/
def JoinedStream.poll_flush {A B Ctx : Type}
    (wa : AsyncWriteImpl A Ctx) (wb : AsyncWriteImpl B Ctx) :
    JoinedStream A B → Ctx → Poll (Except IoError Unit) × JoinedStream A B
  | .A a, cx =>
    let r := wa.poll_flush a cx
    (r.1, .A r.2)
  | .B b, cx =>
    let r := wb.poll_flush b cx
    (r.1, .B r.2)

/-- `AsyncWrite for JoinedStream`, `poll_shutdown` (`joined.rs` lines 62-67). -/
def JoinedStream.poll_shutdown {A B Ctx : Type}
    (wa : AsyncWriteImpl A Ctx) (wb : AsyncWriteImpl B Ctx) :
    JoinedStream A B → Ctx → Poll (Except IoError Unit) × JoinedStream A B
  | .A a, cx =>
    let r := wa.poll_shutdown a cx
    (r.1, .A r.2)
  | .B b, cx =>
    let r := wb.poll_shutdown b cx
    (r.1, .B r.2)

/-- Modelled from the spec: `http::Version`, the negotiated protocol version
(external to the provided sources); opaque to the combinator. -/
structure Version where
  code : Nat
deriving DecidableEq, Repr

/-- Modelled from the spec: `HyperHandler` (crate `salvo-core` service layer,
not in the provided sources); opaque to the combinator, passed through. -/
structure HyperHandler where
  id : Nat
deriving DecidableEq, Repr

/-- Modelled from the spec: `HttpBuilders`, the protocol configuration
(crate `salvo-core`, not in the provided sources); opaque, passed through. -/
structure HttpBuilders where
  id : Nat
deriving DecidableEq, Repr

/-- The `HttpConnection` capability of a connection type `C`: `version` is
async and takes `&mut self`, so it returns the updated connection; `serve`
consumes the connection. -/
structure HttpConnectionImpl (C : Type) where
  version : C → Option Version × C
  serve : C → HyperHandler → HttpBuilders → Except IoError Unit

/-- `HttpConnection for JoinedStream`, `version` (`joined.rs` lines 120-125):
dispatch to the active variant. -/
def JoinedStream.version {A B : Type}
    (ha : HttpConnectionImpl A) (hb : HttpConnectionImpl B) :
    JoinedStream A B → Option Version × JoinedStream A B
  | .A a =>
    let r := ha.version a
    (r.1, .A r.2)
  | .B b =>
    let r := hb.version b
    (r.1, .B r.2)

/-- `HttpConnection for JoinedStream`, `serve` (`joined.rs` lines 126-131):
dispatch to the active variant, handler and builders passed through. -/
def JoinedStream.serve {A B : Type}
    (ha : HttpConnectionImpl A) (hb : HttpConnectionImpl B) :
    JoinedStream A B → HyperHandler → HttpBuilders → Except IoError Unit
  | .A a, handler, builders => ha.serve a handler builders
  | .B b, handler, builders => hb.serve b handler builders

/-- The `Listener` capability of a listener type `L` producing acceptors of
type `Acc`: `try_bind` consumes the listener and runs in a world `W` that
records the side effects of binding (which resources got bound). -/
structure ListenerImpl (L Acc W : Type) where
  try_bind : L → W → Except IoError Acc × W

/-- The `Acceptor` capability of an acceptor type `Acc` yielding connections
of type `Conn`: `holdings` is read-only; `accept` takes `&mut self`, so it
returns the updated acceptor. -/
structure AcceptorImpl (Acc Conn : Type) where
  holdings : Acc → List Holding
  accept : Acc → Except IoError (Accepted Conn) × Acc

/-- `JoinedListener<A, B>` (`joined.rs` lines 72-77). -/
structure JoinedListener (A B : Type) where
  a : A
  b : B
deriving DecidableEq, Repr

/-- `JoinedListener::new` (`joined.rs` lines 82-84). -/
def JoinedListener.new {A B : Type} (a : A) (b : B) : JoinedListener A B :=
  { a := a, b := b }

/-- `JoinedAcceptor<A, B>` (`joined.rs` lines 108-112): the two bound
sub-acceptors plus the merged holdings computed at bind time. -/
structure JoinedAcceptor (A B : Type) where
  a : A
  b : B
  holdings : List Holding
deriving DecidableEq, Repr

/-- `JoinedListener::try_bind` (`joined.rs` lines 100-105): bind `a`, then
`b`, propagating either error with `?`; on success concatenate the two
holdings sequences (`a.holdings().iter().chain(b.holdings().iter())`). -/
def JoinedListener.try_bind {LA LB AccA AccB ConnA ConnB W : Type}
    (la : ListenerImpl LA AccA W) (lb : ListenerImpl LB AccB W)
    (accA : AcceptorImpl AccA ConnA) (accB : AcceptorImpl AccB ConnB)
    (l : JoinedListener LA LB) (w : W) :
    Except IoError (JoinedAcceptor AccA AccB) × W :=
  match la.try_bind l.a w with
  | (.error e, w1) => (.error e, w1)
  | (.ok a, w1) =>
    match lb.try_bind l.b w1 with
    | (.error e, w2) => (.error e, w2)
    | (.ok b, w2) =>
      (.ok { a := a, b := b, holdings := accA.holdings a ++ accB.holdings b }, w2)

/-- `JoinedListener::bind` (`joined.rs` lines 96-98):
`self.try_bind().await.unwrap()` — the `unwrap` panic (process abort) is
embedded as `none`. -/
def JoinedListener.bind {LA LB AccA AccB ConnA ConnB W : Type}
    (la : ListenerImpl LA AccA W) (lb : ListenerImpl LB AccB W)
    (accA : AcceptorImpl AccA ConnA) (accB : AcceptorImpl AccB ConnB)
    (l : JoinedListener LA LB) (w : W) :
    Option (JoinedAcceptor AccA AccB) × W :=
  match l.try_bind la lb accA accB w with
  | (.ok j, w1) => (some j, w1)
  | (.error _, w1) => (none, w1)

/-- The nondeterministic outcome of `tokio::select!` over the two sub-accept
futures: which one completes first on this call. -/
inductive Winner where
  | A
  | B
deriving DecidableEq, Repr

/-- `JoinedAcceptor::accept` (`joined.rs` lines 150-159): race the two
sub-accepts; the winning branch runs `Ok(accepted?.map_conn(JoinedStream::X))`.
Only the winner's acceptor state advances — the losing future is dropped. -/
def JoinedAcceptor.accept {AccA AccB ConnA ConnB : Type}
    (accA : AcceptorImpl AccA ConnA) (accB : AcceptorImpl AccB ConnB)
    (win : Winner) (j : JoinedAcceptor AccA AccB) :
    Except IoError (Accepted (JoinedStream ConnA ConnB)) × JoinedAcceptor AccA AccB :=
  match win with
  | .A =>
    match accA.accept j.a with
    | (.error e, a1) => (.error e, { j with a := a1 })
    | (.ok acc, a1) => (.ok (acc.map_conn JoinedStream.A), { j with a := a1 })
  | .B =>
    match accB.accept j.b with
    | (.error e, b1) => (.error e, { j with b := b1 })
    | (.ok acc, b1) => (.ok (acc.map_conn JoinedStream.B), { j with b := b1 })

/-- A concrete listener used to exercise the combinator: the world is the list
of bound addresses; binding fails when the address is already in the world. -/
def tcpL : ListenerImpl String String (List String) :=
  { try_bind := fun l w =>
      if w.contains l then ({ msg := "address in use" : IoError} |> Except.error, w)
      else (Except.ok l, w ++ [l]) }

/-- A concrete listener whose bind always fails, leaving the world unchanged. -/
def badL : ListenerImpl String String (List String) :=
  { try_bind := fun _ w => ({ msg := "permission denied" : IoError} |> Except.error, w) }

/-- A concrete acceptor over `tcpL` acceptors: one holding per address, and an
accept that always yields connection `7` from peer `"peer"`. -/
def tcpAcc : AcceptorImpl String Nat :=
  { holdings := fun a => [{ kind := "tcp", addr := a, versions := ["HTTP/1.1"] }],
    accept := fun a => (Except.ok { conn := 7, local_addr := a, remote_addr := "peer" }, a) }

/-- A concrete acceptor whose accept always fails. -/
def errAcc : AcceptorImpl String Nat :=
  { holdings := fun a => [{ kind := "tcp", addr := a, versions := ["HTTP/1.1"] }],
    accept := fun a => ({ msg := "connection reset" : IoError} |> Except.error, a) }

/-- C1: when both sub-binds succeed, the `JoinedAcceptor` returned by
`JoinedListener::try_bind` has holdings equal to A's acceptor's holdings
followed by B's acceptor's holdings, computed at bind time. -/
theorem joined_try_bind_holdings_concat
    {LA LB AccA AccB ConnA ConnB W : Type}
    (la : ListenerImpl LA AccA W) (lb : ListenerImpl LB AccB W)
    (accA : AcceptorImpl AccA ConnA) (accB : AcceptorImpl AccB ConnB)
    (l : JoinedListener LA LB) (w : W) (a : AccA) (b : AccB) (w1 w2 : W)
    (hA : la.try_bind l.a w = (Except.ok a, w1))
    (hB : lb.try_bind l.b w1 = (Except.ok b, w2)) :
    ∃ j : JoinedAcceptor AccA AccB,
      (JoinedListener.try_bind la lb accA accB l w).1 = Except.ok j ∧
      j.holdings = accA.holdings a ++ accB.holdings b := by
  refine ⟨{ a := a, b := b, holdings := accA.holdings a ++ accB.holdings b }, ?_, rfl⟩
  simp [JoinedListener.try_bind, hA, hB]

/-- Witness for C1 at a concrete pair of listeners. -/
theorem joined_try_bind_holdings_concat_witness :
    ∃ j : JoinedAcceptor String String,
      (JoinedListener.try_bind tcpL tcpL tcpAcc tcpAcc
          (JoinedListener.new "addr1" "addr2") []).1 = Except.ok j ∧
      j.holdings = tcpAcc.holdings "addr1" ++ tcpAcc.holdings "addr2" :=
  joined_try_bind_holdings_concat tcpL tcpL tcpAcc tcpAcc
    (JoinedListener.new "addr1" "addr2") [] "addr1" "addr2" ["addr1"] ["addr1", "addr2"]
    rfl rfl

/-- C2: `try_bind` binds A first, then B; either failure is returned
immediately. When A fails, the returned state is exactly A's post-state, for
every possible B listener — B is never bound — and in both failure cases the
result is an error, so no `JoinedAcceptor` (hence no holdings) is exposed. -/
theorem joined_try_bind_error_short_circuit
    {LA LB AccA AccB ConnA ConnB W : Type}
    (la : ListenerImpl LA AccA W) (lb : ListenerImpl LB AccB W)
    (accA : AcceptorImpl AccA ConnA) (accB : AcceptorImpl AccB ConnB)
    (l : JoinedListener LA LB) (w : W) :
    (∀ e w1, la.try_bind l.a w = (Except.error e, w1) →
      JoinedListener.try_bind la lb accA accB l w = (Except.error e, w1)) ∧
    (∀ a w1 e w2, la.try_bind l.a w = (Except.ok a, w1) →
      lb.try_bind l.b w1 = (Except.error e, w2) →
      JoinedListener.try_bind la lb accA accB l w = (Except.error e, w2)) := by
  constructor
  · intro e w1 hA
    simp [JoinedListener.try_bind, hA]
  · intro a w1 e w2 hA hB
    simp [JoinedListener.try_bind, hA, hB]

/-- Witness for C2: a failing A listener short-circuits the joined bind. -/
theorem joined_try_bind_error_short_circuit_witness :
    JoinedListener.try_bind badL tcpL tcpAcc tcpAcc
        (JoinedListener.new "addr1" "addr2") ([] : List String) =
      (Except.error { msg := "permission denied" }, []) :=
  (joined_try_bind_error_short_circuit badL tcpL tcpAcc tcpAcc
      (JoinedListener.new "addr1" "addr2") []).1 { msg := "permission denied" } [] rfl

/-- C3: a connection accepted from sub-acceptor A is wrapped as
`JoinedStream::A`, one from B as `JoinedStream::B`, via `map_conn`, which
preserves the `Accepted` local/remote address metadata. -/
theorem joined_accept_tags_variant
    {AccA AccB ConnA ConnB : Type}
    (accA : AcceptorImpl AccA ConnA) (accB : AcceptorImpl AccB ConnB)
    (j : JoinedAcceptor AccA AccB) :
    (∀ acc a1, accA.accept j.a = (Except.ok acc, a1) →
      (JoinedAcceptor.accept accA accB Winner.A j).1 =
        Except.ok { conn := JoinedStream.A acc.conn, local_addr := acc.local_addr,
                    remote_addr := acc.remote_addr }) ∧
    (∀ acc b1, accB.accept j.b = (Except.ok acc, b1) →
      (JoinedAcceptor.accept accA accB Winner.B j).1 =
        Except.ok { conn := JoinedStream.B acc.conn, local_addr := acc.local_addr,
                    remote_addr := acc.remote_addr }) := by
  constructor
  · intro acc a1 hA
    simp [JoinedAcceptor.accept, hA, Accepted.map_conn]
  · intro acc b1 hB
    simp [JoinedAcceptor.accept, hB, Accepted.map_conn]

/-- Witness for C3 at a concrete acceptor pair with A winning the race. -/
theorem joined_accept_tags_variant_witness :
    (JoinedAcceptor.accept tcpAcc tcpAcc Winner.A
        { a := "addr1", b := "addr2", holdings := [] }).1 =
      Except.ok { conn := JoinedStream.A 7, local_addr := "addr1", remote_addr := "peer" } :=
  (joined_accept_tags_variant tcpAcc tcpAcc { a := "addr1", b := "addr2", holdings := [] }).1
    { conn := 7, local_addr := "addr1", remote_addr := "peer" } "addr1" rfl

/-- C4: every byte-stream operation on a `JoinedStream` returns exactly the
active variant's result on the same arguments, with the updated inner
connection rewrapped in the same variant — a transparent pass-through with no
buffering or transformation, for both variants and all four operations. -/
theorem joined_stream_transparent_io
    {A B Ctx Buf : Type}
    (ra : AsyncReadImpl A Ctx Buf) (rb : AsyncReadImpl B Ctx Buf)
    (wa : AsyncWriteImpl A Ctx) (wb : AsyncWriteImpl B Ctx)
    (a : A) (b : B) (cx : Ctx) (buf : Buf) (data : List Nat) :
    (JoinedStream.poll_read ra rb (JoinedStream.A a) cx buf =
      ((ra.poll_read a cx buf).1, JoinedStream.A (ra.poll_read a cx buf).2.1,
        (ra.poll_read a cx buf).2.2)) ∧
    (JoinedStream.poll_read ra rb (JoinedStream.B b) cx buf =
      ((rb.poll_read b cx buf).1, JoinedStream.B (rb.poll_read b cx buf).2.1,
        (rb.poll_read b cx buf).2.2)) ∧
    (JoinedStream.poll_write wa wb (JoinedStream.A a) cx data =
      ((wa.poll_write a cx data).1, JoinedStream.A (wa.poll_write a cx data).2)) ∧
    (JoinedStream.poll_write wa wb (JoinedStream.B b) cx data =
      ((wb.poll_write b cx data).1, JoinedStream.B (wb.poll_write b cx data).2)) ∧
    (JoinedStream.poll_flush wa wb (JoinedStream.A a) cx =
      ((wa.poll_flush a cx).1, JoinedStream.A (wa.poll_flush a cx).2)) ∧
    (JoinedStream.poll_flush wa wb (JoinedStream.B b) cx =
      ((wb.poll_flush b cx).1, JoinedStream.B (wb.poll_flush b cx).2)) ∧
    (JoinedStream.poll_shutdown wa wb (JoinedStream.A a) cx =
      ((wa.poll_shutdown a cx).1, JoinedStream.A (wa.poll_shutdown a cx).2)) ∧
    (JoinedStream.poll_shutdown wa wb (JoinedStream.B b) cx =
      ((wb.poll_shutdown b cx).1, JoinedStream.B (wb.poll_shutdown b cx).2)) :=
  ⟨rfl, rfl, rfl, rfl, rfl, rfl, rfl, rfl⟩

/-- C5: each `accept` call is a race of both sub-accepts decided by a fresh
nondeterministic winner; for either winner the call's result is exactly the
winner's own accept result (mapped into its variant), the loser's acceptor
state is left untouched, and no race state is persisted in the
`JoinedAcceptor` — the next call races the two stored acceptors from
scratch. -/
theorem joined_accept_race_per_call
    {AccA AccB ConnA ConnB : Type}
    (accA : AcceptorImpl AccA ConnA) (accB : AcceptorImpl AccB ConnB)
    (j : JoinedAcceptor AccA AccB) :
    (JoinedAcceptor.accept accA accB Winner.A j =
      ((accA.accept j.a).1.map (fun acc => acc.map_conn JoinedStream.A),
        { a := (accA.accept j.a).2, b := j.b, holdings := j.holdings })) ∧
    (JoinedAcceptor.accept accA accB Winner.B j =
      ((accB.accept j.b).1.map (fun acc => acc.map_conn JoinedStream.B),
        { a := j.a, b := (accB.accept j.b).2, holdings := j.holdings })) := by
  constructor
  · rcases hA : accA.accept j.a with ⟨r, a1⟩
    cases r <;> simp [JoinedAcceptor.accept, hA, Except.map]
  · rcases hB : accB.accept j.b with ⟨r, b1⟩
    cases r <;> simp [JoinedAcceptor.accept, hB, Except.map]

/-- C6: when the winning source's accept fails, that exact error value is the
call's result — nothing in it marks the origin — and the losing source's
acceptor is neither observed nor advanced. -/
theorem joined_accept_error_forwarding
    {AccA AccB ConnA ConnB : Type}
    (accA : AcceptorImpl AccA ConnA) (accB : AcceptorImpl AccB ConnB)
    (j : JoinedAcceptor AccA AccB) :
    (∀ e a1, accA.accept j.a = (Except.error e, a1) →
      JoinedAcceptor.accept accA accB Winner.A j =
        (Except.error e, { a := a1, b := j.b, holdings := j.holdings })) ∧
    (∀ e b1, accB.accept j.b = (Except.error e, b1) →
      JoinedAcceptor.accept accA accB Winner.B j =
        (Except.error e, { a := j.a, b := b1, holdings := j.holdings })) := by
  constructor
  · intro e a1 hA
    simp [JoinedAcceptor.accept, hA]
  · intro e b1 hB
    simp [JoinedAcceptor.accept, hB]

/-- Witness for C6: a failing winner's error is forwarded unchanged. -/
theorem joined_accept_error_forwarding_witness :
    JoinedAcceptor.accept errAcc tcpAcc Winner.A
        { a := "addr1", b := "addr2", holdings := [] } =
      (Except.error { msg := "connection reset" },
        { a := "addr1", b := "addr2", holdings := [] }) :=
  (joined_accept_error_forwarding errAcc tcpAcc
      { a := "addr1", b := "addr2", holdings := [] }).1
    { msg := "connection reset" } "addr1" rfl

/-- C7: `bind` is `try_bind` followed by abort-on-error: on `try_bind` success
it returns the very same `JoinedAcceptor` (and state), and on failure it
aborts (embedded as `none`) instead of returning an acceptor. -/
theorem joined_bind_is_try_bind_then_abort
    {LA LB AccA AccB ConnA ConnB W : Type}
    (la : ListenerImpl LA AccA W) (lb : ListenerImpl LB AccB W)
    (accA : AcceptorImpl AccA ConnA) (accB : AcceptorImpl AccB ConnB)
    (l : JoinedListener LA LB) (w : W) :
    (∀ j w1, JoinedListener.try_bind la lb accA accB l w = (Except.ok j, w1) →
      JoinedListener.bind la lb accA accB l w = (some j, w1)) ∧
    (∀ e w1, JoinedListener.try_bind la lb accA accB l w = (Except.error e, w1) →
      JoinedListener.bind la lb accA accB l w = (none, w1)) := by
  constructor
  · intro j w1 h
    simp [JoinedListener.bind, h]
  · intro e w1 h
    simp [JoinedListener.bind, h]

/-- Witness for C7: on a successful concrete try_bind, bind returns the same
acceptor. -/
theorem joined_bind_is_try_bind_then_abort_witness :
    JoinedListener.bind tcpL tcpL tcpAcc tcpAcc
        (JoinedListener.new "addr1" "addr2") ([] : List String) =
      (some { a := "addr1", b := "addr2",
              holdings := tcpAcc.holdings "addr1" ++ tcpAcc.holdings "addr2" },
        ["addr1", "addr2"]) :=
  (joined_bind_is_try_bind_then_abort tcpL tcpL tcpAcc tcpAcc
      (JoinedListener.new "addr1" "addr2") []).1
    { a := "addr1", b := "addr2",
      holdings := tcpAcc.holdings "addr1" ++ tcpAcc.holdings "addr2" }
    ["addr1", "addr2"] rfl

/-- C8: `version()` on a `JoinedStream` returns exactly the active variant's
negotiated protocol version (the inner connection advancing in place), and
`serve(handler, builders)` consumes the stream and returns the active
variant's own serve result, with handler and protocol configuration passed
through unmodified, for both variants. -/
theorem joined_stream_version_serve_dispatch
    {A B : Type}
    (ha : HttpConnectionImpl A) (hb : HttpConnectionImpl B)
    (a : A) (b : B) (handler : HyperHandler) (builders : HttpBuilders) :
    (JoinedStream.version ha hb (JoinedStream.A a) =
      ((ha.version a).1, JoinedStream.A (ha.version a).2)) ∧
    (JoinedStream.version ha hb (JoinedStream.B b) =
      ((hb.version b).1, JoinedStream.B (hb.version b).2)) ∧
    (JoinedStream.serve ha hb (JoinedStream.A a) handler builders =
      ha.serve a handler builders) ∧
    (JoinedStream.serve ha hb (JoinedStream.B b) handler builders =
      hb.serve b handler builders) :=
  ⟨rfl, rfl, rfl, rfl⟩

/-- C9: `accept` never touches the holdings: for every winner and every
outcome (connection or error), the acceptor after the call has the same
holdings sequence as before — the sequence fixed at bind time persists for
the acceptor's lifetime. -/
theorem joined_accept_preserves_holdings
    {AccA AccB ConnA ConnB : Type}
    (accA : AcceptorImpl AccA ConnA) (accB : AcceptorImpl AccB ConnB)
    (win : Winner) (j : JoinedAcceptor AccA AccB) :
    ((JoinedAcceptor.accept accA accB win j).2).holdings = j.holdings := by
  cases win
  · rcases hA : accA.accept j.a with ⟨r, a1⟩
    cases r <;> simp [JoinedAcceptor.accept, hA]
  · rcases hB : accB.accept j.b with ⟨r, b1⟩
    cases r <;> simp [JoinedAcceptor.accept, hB]

/-- C10: `try_bind` introduces no failure mode of its own: whenever both
sub-binds succeed, the joined bind succeeds, and the returned acceptor stores
exactly the two produced sub-acceptors, unmodified. -/
theorem joined_try_bind_no_own_failure
    {LA LB AccA AccB ConnA ConnB W : Type}
    (la : ListenerImpl LA AccA W) (lb : ListenerImpl LB AccB W)
    (accA : AcceptorImpl AccA ConnA) (accB : AcceptorImpl AccB ConnB)
    (l : JoinedListener LA LB) (w : W) (a : AccA) (b : AccB) (w1 w2 : W)
    (hA : la.try_bind l.a w = (Except.ok a, w1))
    (hB : lb.try_bind l.b w1 = (Except.ok b, w2)) :
    JoinedListener.try_bind la lb accA accB l w =
      (Except.ok { a := a, b := b,
                   holdings := accA.holdings a ++ accB.holdings b }, w2) := by
  simp [JoinedListener.try_bind, hA, hB]

/-- Witness for C10 at a concrete pair of listeners. -/
theorem joined_try_bind_no_own_failure_witness :
    JoinedListener.try_bind tcpL tcpL tcpAcc tcpAcc
        (JoinedListener.new "addr1" "addr2") ([] : List String) =
      (Except.ok { a := "addr1", b := "addr2",
                   holdings := tcpAcc.holdings "addr1" ++ tcpAcc.holdings "addr2" },
        ["addr1", "addr2"]) :=
  joined_try_bind_no_own_failure tcpL tcpL tcpAcc tcpAcc
    (JoinedListener.new "addr1" "addr2") [] "addr1" "addr2" ["addr1"] ["addr1", "addr2"]
    rfl rfl
